import Mathlib

/-!
Verification of the `tcpconn` repository: a TCP-like reliable transport over
UDP.  This file shallowly embeds, in Lean, the parts of the Go source that the
claims under scrutiny concern:

* `tcpstate.go` — the TCP connection state machine (`transition`,
  `ProcessEvent`);
* `ringbuffer.go` — the bounded byte ring buffer (`Write`, `WriteAll`,
  `Read`);
* `pkg/tcpv2/conn.go` — the reliability engine (`HandlePacket`, `Close`,
  `Read`, `updateRTO`, the retransmission tick).

Every definition mirrors the corresponding Go function; Go `uint32`
arithmetic is rendered as `Nat` arithmetic taken `% 2^32` exactly where Go
overflows, byte slices as `List Nat`, Go maps as association lists (Go map
iteration order is unspecified; the per-entry decisions modelled here are
independent of it), and timestamps as abstract `Nat` instants threaded
explicitly.
-/

set_option autoImplicit false

namespace Tcpconn

/-- The eleven connection states of `tcpstate.go` (`TCPState`). -/
inductive TCPState where
  | CLOSED | LISTEN | SYN_SENT | SYN_RECEIVED | ESTABLISHED
  | FIN_WAIT_1 | FIN_WAIT_2 | CLOSE_WAIT | CLOSING | LAST_ACK | TIME_WAIT
deriving DecidableEq, Repr

/-- The ten events of `tcpstate.go` (`TCPEvent`). -/
inductive TCPEvent where
  | PASSIVE_OPEN | ACTIVE_OPEN | SYN | SYN_ACK | ACK
  | FIN | FIN_ACK | CLOSE | TIMEOUT | RST
deriving DecidableEq, Repr

open TCPState TCPEvent

/-- Embedding of `(*TCPStateMachine).transition` from `tcpstate.go`:
`none` renders the Go `(state, ErrInvalidTransition)` return, `some s'` the
successful `(s', nil)` return.  RST is handled first and always yields
CLOSED, exactly as in the source. -/
def transition (state : TCPState) (event : TCPEvent) : Option TCPState :=
  if event = RST then some CLOSED
  else
    match state, event with
    | CLOSED, PASSIVE_OPEN => some LISTEN
    | CLOSED, ACTIVE_OPEN => some SYN_SENT
    | LISTEN, SYN => some SYN_RECEIVED
    | LISTEN, CLOSE => some CLOSED
    | SYN_SENT, SYN_ACK => some ESTABLISHED
    | SYN_SENT, SYN => some SYN_RECEIVED
    | SYN_SENT, CLOSE => some CLOSED
    | SYN_SENT, TIMEOUT => some CLOSED
    | SYN_RECEIVED, ACK => some ESTABLISHED
    | SYN_RECEIVED, CLOSE => some FIN_WAIT_1
    | SYN_RECEIVED, TIMEOUT => some CLOSED
    | ESTABLISHED, FIN => some CLOSE_WAIT
    | ESTABLISHED, CLOSE => some FIN_WAIT_1
    | FIN_WAIT_1, FIN => some CLOSING
    | FIN_WAIT_1, ACK => some FIN_WAIT_2
    | FIN_WAIT_1, FIN_ACK => some TIME_WAIT
    | FIN_WAIT_2, FIN => some TIME_WAIT
    | CLOSE_WAIT, CLOSE => some LAST_ACK
    | CLOSING, ACK => some TIME_WAIT
    | LAST_ACK, ACK => some CLOSED
    | TIME_WAIT, TIMEOUT => some CLOSED
    | _, _ => none

/-- A transition record, as `StateTransition` in `tcpstate.go`. -/
structure StateTransition where
  fromState : TCPState
  toState : TCPState
  event : TCPEvent
deriving DecidableEq, Repr

/-- The state machine's mutable data (`TCPStateMachine`): current state,
transition history and the history cap (`maxHistorySize`, 100 in
`NewTCPStateMachine`).  The callbacks are modelled at the connection level,
where `NewConn` installs them. -/
structure SM where
  currentState : TCPState
  transitionHistory : List StateTransition
  maxHistorySize : Nat
deriving DecidableEq, Repr

/-- `NewTCPStateMachine`: state CLOSED, empty history, cap 100. -/
def SM.new : SM := ⟨CLOSED, [], 100⟩

/-- `addToHistory`: append, then drop the oldest record when over the cap. -/
def SM.addToHistory (sm : SM) (t : StateTransition) : SM :=
  let h := sm.transitionHistory ++ [t]
  { sm with transitionHistory := if h.length > sm.maxHistorySize then h.tail else h }

/-- The state machine's only error, `ErrInvalidTransition`. -/
inductive SMErr where
  | invalidTransition
deriving DecidableEq, Repr

/-- Embedding of `(*TCPStateMachine).ProcessEvent`: on a legal transition the
state advances and the record is appended to the history; on an illegal one
the error is returned and the machine is left untouched. -/
def SM.processEvent (sm : SM) (event : TCPEvent) : SM × Option SMErr :=
  match transition sm.currentState event with
  | none => (sm, some SMErr.invalidTransition)
  | some newState =>
      (({ sm with currentState := newState }).addToHistory
        ⟨sm.currentState, newState, event⟩, none)

/-- The §4.2 transition table of the specification, written from the spec's
words (one row per state, one column per event; a `none` cell is the "—" of
the table).  This definition follows the SPEC, to be compared with
`transition`, which follows the source. -/
def specTransitionTable (state : TCPState) (event : TCPEvent) : Option TCPState :=
  match state, event with
  | CLOSED, PASSIVE_OPEN => some LISTEN
  | CLOSED, ACTIVE_OPEN => some SYN_SENT
  | CLOSED, RST => some CLOSED
  | LISTEN, SYN => some SYN_RECEIVED
  | LISTEN, CLOSE => some CLOSED
  | LISTEN, RST => some CLOSED
  | SYN_SENT, SYN => some SYN_RECEIVED
  | SYN_SENT, SYN_ACK => some ESTABLISHED
  | SYN_SENT, CLOSE => some CLOSED
  | SYN_SENT, TIMEOUT => some CLOSED
  | SYN_SENT, RST => some CLOSED
  | SYN_RECEIVED, ACK => some ESTABLISHED
  | SYN_RECEIVED, CLOSE => some FIN_WAIT_1
  | SYN_RECEIVED, TIMEOUT => some CLOSED
  | SYN_RECEIVED, RST => some CLOSED
  | ESTABLISHED, FIN => some CLOSE_WAIT
  | ESTABLISHED, CLOSE => some FIN_WAIT_1
  | ESTABLISHED, RST => some CLOSED
  | FIN_WAIT_1, ACK => some FIN_WAIT_2
  | FIN_WAIT_1, FIN => some CLOSING
  | FIN_WAIT_1, FIN_ACK => some TIME_WAIT
  | FIN_WAIT_1, RST => some CLOSED
  | FIN_WAIT_2, FIN => some TIME_WAIT
  | FIN_WAIT_2, RST => some CLOSED
  | CLOSE_WAIT, CLOSE => some LAST_ACK
  | CLOSE_WAIT, RST => some CLOSED
  | CLOSING, ACK => some TIME_WAIT
  | CLOSING, RST => some CLOSED
  | LAST_ACK, ACK => some CLOSED
  | LAST_ACK, RST => some CLOSED
  | TIME_WAIT, TIMEOUT => some CLOSED
  | TIME_WAIT, RST => some CLOSED
  | _, _ => none

/-! ## Ring buffer (`ringbuffer.go`) -/

/-- The ring-buffer errors of `ringbuffer.go`. -/
inductive RBErr where
  | bufferFull
  | bufferEmpty
  | invalidCapacity
  | invalidSize
deriving DecidableEq, Repr

/-- `RingBuffer`: a byte array (`List Nat`, one `Nat` per byte), its capacity,
the byte count `size`, the write index `head` and the read index `tail`. -/
structure RingBuffer where
  buffer : List Nat
  capacity : Nat
  size : Nat
  head : Nat
  tail : Nat
deriving DecidableEq, Repr

/-- `NewRingBuffer`: fails with `ErrInvalidCapacity` when `capacity <= 0`
(capacities are `Nat` here, the Go `int` is non-negative in every call site
modelled below). -/
def RingBuffer.new (capacity : Nat) : Option RingBuffer :=
  if capacity = 0 then none
  else some ⟨List.replicate capacity 0, capacity, 0, 0, 0⟩

/-- One iteration of the write loops of `Write`/`WriteAll`:
`rb.buffer[rb.head] = b; rb.head = (rb.head + 1) % rb.capacity`. -/
def RingBuffer.writeByte (rb : RingBuffer) (b : Nat) : RingBuffer :=
  { rb with buffer := rb.buffer.set rb.head b,
            head := (rb.head + 1) % rb.capacity }

/-- The write loop over a byte list (the `for i := 0; i < toWrite; i++` body
of `Write` and `WriteAll`); `size` is bumped by the caller afterwards, as in
the source. -/
def RingBuffer.writeBytes (rb : RingBuffer) (data : List Nat) : RingBuffer :=
  data.foldl RingBuffer.writeByte rb

/-- Embedding of `(*RingBuffer).Write`: copies `min(len(data), free)` bytes,
returns the count; `ErrBufferFull` when the buffer is full on entry and the
data is non-empty. -/
def RingBuffer.write (rb : RingBuffer) (data : List Nat) :
    RingBuffer × Nat × Option RBErr :=
  if data.length = 0 then (rb, 0, none)
  else
    let availableSpace := rb.capacity - rb.size
    if availableSpace = 0 then (rb, 0, some RBErr.bufferFull)
    else
      let toWrite := min data.length availableSpace
      let rb' := rb.writeBytes (data.take toWrite)
      ({ rb' with size := rb.size + toWrite }, toWrite, none)

/-- Embedding of `(*RingBuffer).WriteAll`: all-or-nothing write. -/
def RingBuffer.writeAll (rb : RingBuffer) (data : List Nat) :
    RingBuffer × Option RBErr :=
  if data.length = 0 then (rb, none)
  else
    let availableSpace := rb.capacity - rb.size
    if data.length > availableSpace then (rb, some RBErr.bufferFull)
    else ({ rb.writeBytes data with size := rb.size + data.length }, none)

/-- The read loop of `(*RingBuffer).Read`: copy a byte from `tail`, advance
`tail` modulo the capacity. -/
def RingBuffer.readLoop : Nat → RingBuffer → List Nat × RingBuffer
  | 0, rb => ([], rb)
  | n + 1, rb =>
      let b := rb.buffer.getD rb.tail 0
      let (bs, rb') := RingBuffer.readLoop n
        { rb with tail := (rb.tail + 1) % rb.capacity }
      (b :: bs, rb')

/-- Embedding of `(*RingBuffer).Read` into an output slice of length `n`:
copies `min(n, size)` bytes, advancing the read position; `ErrBufferEmpty`
when the buffer is empty and `n > 0`. -/
def RingBuffer.read (rb : RingBuffer) (n : Nat) :
    RingBuffer × List Nat × Option RBErr :=
  if n = 0 then (rb, [], none)
  else if rb.size = 0 then (rb, [], some RBErr.bufferEmpty)
  else
    let toRead := min n rb.size
    let (bs, rb') := RingBuffer.readLoop toRead rb
    ({ rb' with size := rb.size - toRead }, bs, none)

/-- `IsEmpty`. -/
def RingBuffer.isEmpty (rb : RingBuffer) : Bool := rb.size = 0

/-- `FreeSpace`. -/
def RingBuffer.freeSpace (rb : RingBuffer) : Nat := rb.capacity - rb.size

/-- The logical contents of the buffer: the `size` bytes starting at `tail`,
indices wrapping modulo the capacity.  This is the observable byte sequence
a reader drains. -/
def RingBuffer.contents (rb : RingBuffer) : List Nat :=
  (List.range rb.size).map fun i => rb.buffer.getD ((rb.tail + i) % rb.capacity) 0

/-- Well-formedness maintained by every ring-buffer operation: the storage
has exactly `capacity` cells, the capacity is positive (enforced by
`NewRingBuffer`), at most `capacity` bytes are held, and `head` is the cell
`size` steps past `tail`. -/
def RingBuffer.wf (rb : RingBuffer) : Prop :=
  rb.buffer.length = rb.capacity ∧ 0 < rb.capacity ∧ rb.size ≤ rb.capacity ∧
  rb.tail < rb.capacity ∧ rb.head = (rb.tail + rb.size) % rb.capacity

/-! ## Reliability engine (`pkg/tcpv2/conn.go`) -/

/-- `2^32`, the modulus of Go `uint32` sequence-number arithmetic. -/
def u32Mod : Nat := 4294967296

/-- `MinRTO = 200ms`, in nanoseconds (`time.Duration`). -/
def MinRTO : Nat := 200000000

/-- `MaxRTO = 60s`, in nanoseconds. -/
def MaxRTO : Nat := 60000000000

/-- `InitialRTO = 1s`, in nanoseconds. -/
def InitialRTO : Nat := 1000000000

/-- `DefaultWindowSize = 0xFFFF`. -/
def DefaultWindowSize : Nat := 65535

/-- Embedding of `(*Conn).updateRTO` (RFC 6298).  Durations are nanoseconds.
The first-sample branch (`c.srtt == 0`) is integer arithmetic in the source
(`rtt / 2` on `time.Duration`) and is rendered exactly.  The
subsequent-sample branch is computed in `float64` in the source; it is
rendered here in exact integer arithmetic (`(3v + |srtt − R|)/4`,
`(7·srtt + R)/8`); no theorem below depends on that branch. -/
def updateRTO (srtt rttvar : Nat) (rtt : Nat) : Nat × Nat × Nat :=
  let p :=
    if srtt = 0 then (rtt, rtt / 2)
    else
      let diff := if rtt ≤ srtt then srtt - rtt else rtt - srtt
      ((7 * srtt + rtt) / 8, (3 * rttvar + diff) / 4)
  let rto := p.1 + 4 * p.2
  let rto := if rto < MinRTO then MinRTO else rto
  let rto := if rto > MaxRTO then MaxRTO else rto
  (p.1, p.2, rto)

/-- The decoded segment record the connection consumes (the fields of the
`Packet` of `pkg/tcpv2` that `HandlePacket` reads: `p.TCP.Seq`, `p.TCP.Ack`,
the four flags, `p.TCP.Window`, `p.Payload`). -/
structure PacketRec where
  seq : Nat
  ack : Nat
  SYN : Bool
  ACK : Bool
  FIN : Bool
  RST : Bool
  window : Nat
  payload : List Nat
deriving DecidableEq, Repr

section AList

variable {α : Type}

/-- `m[k]` on a Go map rendered as an association list. -/
def alookup (k : Nat) : List (Nat × α) → Option α
  | [] => none
  | (k', v) :: rest => if k' = k then some v else alookup k rest

/-- `m[k] = v`: replace an existing binding or append a new one. -/
def aset (k : Nat) (v : α) : List (Nat × α) → List (Nat × α)
  | [] => [(k, v)]
  | (k', v') :: rest =>
      if k' = k then (k, v) :: rest else (k', v') :: aset k v rest

/-- `delete(m, k)`. -/
def aerase (k : Nat) : List (Nat × α) → List (Nat × α)
  | [] => []
  | (k', v') :: rest => if k' = k then rest else (k', v') :: aerase k rest

end AList

/-- The mutable data of one `Conn` (`pkg/tcpv2/conn.go`), with Go maps as
association lists and timestamps as abstract `Nat` instants.  The two
notification channels `connected` and `closeChan` are modelled by flags
saying whether each has been closed; `panicked` records that the Go program
has panicked (a `close` of an already-closed channel) — once it is set the
rest of the modelled execution is immaterial.  `rtoSamples` is
instrumentation: the starting sequence numbers for which an acknowledgment
fed a round-trip sample to `updateRTO`, in order. -/
structure ConnState where
  sm : SM
  seqNum : Nat
  ackNum : Nat
  remoteWin : Nat
  srtt : Nat
  rttvar : Nat
  rto : Nat
  sentTimes : List (Nat × Nat)
  sendQueue : List (Nat × PacketRec)
  receiveQueue : List (Nat × PacketRec)
  readBuffer : RingBuffer
  closed : Bool
  connectedClosed : Bool
  closeChanClosed : Bool
  panicked : Bool
  rtoSamples : List Nat
deriving DecidableEq, Repr

/-- `ProcessEvent` as driven from the connection, including the state-change
callback installed by `NewConn`: after every successful transition, entering
ESTABLISHED does `close(c.connected)` and entering CLOSED does
`close(c.closeChan)`.  Closing an already-closed Go channel panics, recorded
in `panicked`.  A refused event leaves the connection untouched (the error
is swallowed, as at every `ProcessEvent` call site in `conn.go`). -/
def ConnState.processEvent (c : ConnState) (e : TCPEvent) : ConnState :=
  match c.sm.processEvent e with
  | (_, some _) => c
  | (sm', none) =>
      let c := { c with sm := sm' }
      let c :=
        if sm'.currentState = ESTABLISHED then
          if c.connectedClosed then { c with panicked := true }
          else { c with connectedClosed := true }
        else c
      if sm'.currentState = CLOSED then
        if c.closeChanClosed then { c with panicked := true }
        else { c with closeChanClosed := true }
      else c

/-- `sendPacketLocked`: hand the encoded packet to the datagram socket (the
packet is appended to the emission list) and, when it consumes sequence
space (payload, SYN or FIN), record it in the unacknowledged queue and
stamp its send time. -/
def ConnState.sendPacketLocked (c : ConnState) (p : PacketRec) (now : Nat) :
    ConnState × List PacketRec :=
  let c :=
    if p.payload.length > 0 || p.SYN || p.FIN then
      { c with sendQueue := aset p.seq p c.sendQueue,
               sentTimes := aset p.seq now c.sentTimes }
    else c
  (c, [p])

/-- `sendControlPacket`: build a payload-free packet at (`seqNum`, `ackNum`)
with the read buffer's free space as advertised window; SYN and FIN consume
one sequence number (`c.seqNum++` before the send). -/
def ConnState.sendControlPacket (c : ConnState)
    (syn ack fin rst : Bool) (now : Nat) : ConnState × List PacketRec :=
  let p : PacketRec :=
    { seq := c.seqNum, ack := c.ackNum, SYN := syn, ACK := ack, FIN := fin,
      RST := rst, window := c.readBuffer.freeSpace, payload := [] }
  let c := if syn || fin then { c with seqNum := (c.seqNum + 1) % u32Mod } else c
  c.sendPacketLocked p now

/-- End sequence of a queued segment (`pktEnd` in `HandlePacket`): start plus
payload length, or plus one for a payload-free SYN or FIN, in `uint32`. -/
def pktEnd (seq : Nat) (p : PacketRec) : Nat :=
  if p.payload.length > 0 then (seq + p.payload.length) % u32Mod
  else if p.SYN || p.FIN then (seq + 1) % u32Mod
  else seq

/-- The cumulative-acknowledgment sweep of `HandlePacket` (`for seq, pkt :=
range c.sendQueue`): an entry is removed when `p.TCP.Ack >= pktEnd` — the
source's plain `uint32` comparison; on removal, a recorded send time yields
the round-trip sample `now − sentTime` fed to `updateRTO`, and the send time
is cleared.  Go map iteration order is unspecified; each entry's fate is
independent of the order, and the sweep is rendered over the entry list in
list order. -/
def ackSweep (ackVal now : Nat) :
    List (Nat × PacketRec) → ConnState → ConnState
  | [], c => c
  | (seq, pkt) :: rest, c =>
      let c :=
        if ackVal ≥ pktEnd seq pkt then
          let c :=
            match alookup seq c.sentTimes with
            | some t =>
                let r := updateRTO c.srtt c.rttvar (now - t)
                { c with srtt := r.1, rttvar := r.2.1, rto := r.2.2,
                         sentTimes := aerase seq c.sentTimes,
                         rtoSamples := c.rtoSamples ++ [seq] }
            | none => c
          { c with sendQueue := aerase seq c.sendQueue }
        else c
      ackSweep ackVal now rest c

/-- The in-order drain loop of the reassembly table (`for { nextPkt, ok :=
c.receiveQueue[c.ackNum]; ... }`): while an entry is keyed by the current
`ackNum`, delete it, append its payload to the read buffer (the `Write`
return values are discarded, as in the source) and advance `ackNum`.  Each
iteration deletes one entry, so the entry count bounds the iterations and
serves as structural fuel. -/
def drainLoop : Nat → ConnState → ConnState
  | 0, c => c
  | fuel + 1, c =>
      match alookup c.ackNum c.receiveQueue with
      | none => c
      | some pkt =>
          let c := { c with receiveQueue := aerase c.ackNum c.receiveQueue }
          let c := { c with readBuffer := (c.readBuffer.write pkt.payload).1,
                            ackNum := (c.ackNum + pkt.payload.length) % u32Mod }
          drainLoop fuel c

/-- The SYN clause of `HandlePacket`: meaningful only in LISTEN (drive SYN,
answer SYN+ACK) and SYN_SENT (drive SYN_ACK, answer ACK); otherwise the SYN
is ignored. -/
def synBranch (c : ConnState) (p : PacketRec) (now : Nat) :
    ConnState × List PacketRec :=
  if p.SYN then
    if c.sm.currentState = LISTEN then
      let c := c.processEvent SYN
      let c := { c with ackNum := (p.seq + 1) % u32Mod }
      c.sendControlPacket true true false false now
    else if c.sm.currentState = SYN_SENT then
      let c := c.processEvent SYN_ACK
      let c := { c with ackNum := (p.seq + 1) % u32Mod }
      c.sendControlPacket false true false false now
    else (c, [])
  else (c, [])

/-- The ACK clause of `HandlePacket`: drive the machine when the current
state advances on ACK (SYN_RECEIVED, FIN_WAIT_1, LAST_ACK — the last also
sets `closed`), then sweep the unacknowledged queue. -/
def ackBranch (c : ConnState) (p : PacketRec) (now : Nat) : ConnState :=
  if p.ACK then
    let c :=
      if c.sm.currentState = SYN_RECEIVED then c.processEvent ACK
      else if c.sm.currentState = FIN_WAIT_1 then c.processEvent ACK
      else if c.sm.currentState = LAST_ACK then
        { c.processEvent ACK with closed := true }
      else c
    ackSweep p.ack now c.sendQueue c
  else c

/-- The FIN clause of `HandlePacket`: drive FIN (refusals swallowed),
advance `ackNum` by one, answer a bare ACK. -/
def finBranch (c : ConnState) (p : PacketRec) (now : Nat) :
    ConnState × List PacketRec :=
  if p.FIN then
    let c := c.processEvent FIN
    let c := { c with ackNum := (c.ackNum + 1) % u32Mod }
    c.sendControlPacket false true false false now
  else (c, [])

/-- The payload clause of `HandlePacket`: in-order data is written to the
read buffer (return values discarded), `ackNum` advances by the full payload
length, the reassembly table is drained, and a bare ACK is emitted;
out-of-order data (`p.TCP.Seq > c.ackNum`, the source's plain `uint32`
comparison) is queued and acknowledged; anything else falls through without
any action. -/
def payloadBranch (c : ConnState) (p : PacketRec) (now : Nat) :
    ConnState × List PacketRec :=
  if p.payload.length > 0 then
    if p.seq = c.ackNum then
      let c := { c with readBuffer := (c.readBuffer.write p.payload).1 }
      let c := { c with ackNum := (c.ackNum + p.payload.length) % u32Mod }
      let c := drainLoop c.receiveQueue.length c
      c.sendControlPacket false true false false now
    else if p.seq > c.ackNum then
      let c := { c with receiveQueue := aset p.seq p c.receiveQueue }
      c.sendControlPacket false true false false now
    else (c, [])
  else (c, [])

/-- Embedding of `(*Conn).HandlePacket`, the single entry point of the
receive path: RST short-circuits; otherwise the SYN, ACK, FIN and payload
clauses run in sequence and the advertised window is recorded.  Returns the
updated connection and the packets emitted, in order. -/
def ConnState.handlePacket (c : ConnState) (p : PacketRec) (now : Nat) :
    ConnState × List PacketRec :=
  if p.RST then
    let c := c.processEvent RST
    ({ c with closed := true }, [])
  else
    let r1 := synBranch c p now
    let c2 := ackBranch r1.1 p now
    let r2 := finBranch c2 p now
    let r3 := payloadBranch r2.1 p now
    ({ r3.1 with remoteWin := p.window }, r1.2 ++ r2.2 ++ r3.2)

/-- Embedding of `(*Conn).Close`: a second call is a no-op via the `closed`
flag; otherwise drive CLOSE, emit FIN+ACK, set `closed`, and close
`closeChan` (a panic when the state-change callback closed it already). -/
def ConnState.closeConn (c : ConnState) (now : Nat) :
    ConnState × List PacketRec :=
  if c.closed then (c, [])
  else
    let c := c.processEvent CLOSE
    let r := c.sendControlPacket false true true false now
    let c := { r.1 with closed := true }
    let c :=
      if c.closeChanClosed then { c with panicked := true }
      else { c with closeChanClosed := true }
    (c, r.2)

/-- The possible behaviors of `(*Conn).Read` once it holds the mutex. -/
inductive ReadOutcome where
  | bytes
  | eof
  | blocks
deriving DecidableEq, Repr

/-- The decision `(*Conn).Read`'s wait loop makes: return data when the ring
buffer is non-empty; return `(0, net.ErrClosed)` (end of stream) when
`c.closed` or the machine is in CLOSED; otherwise `c.cond.Wait()` — the
reader stays blocked, re-evaluating this same predicate on every wake. -/
def ConnState.readDecision (c : ConnState) : ReadOutcome :=
  if ¬ c.readBuffer.isEmpty then ReadOutcome.bytes
  else if c.closed || c.sm.currentState = CLOSED then ReadOutcome.eof
  else ReadOutcome.blocks

/-- One firing of `retransmitLoop`'s timer with a non-empty send queue:
every unacknowledged packet is re-emitted and its send time refreshed to
`now`; the RTO is then doubled, capped at `MaxRTO`.  (Go map iteration order
is unspecified; entries are processed in list order.) -/
def ConnState.retransmitTick (c : ConnState) (now : Nat) :
    ConnState × List PacketRec :=
  if c.sendQueue.length > 0 then
    let c := { c with
      sentTimes := c.sendQueue.foldl
        (fun st (e : Nat × PacketRec) => aset e.1 now st) c.sentTimes }
    let r := c.rto * 2
    ({ c with rto := if r > MaxRTO then MaxRTO else r },
      c.sendQueue.map Prod.snd)
  else (c, [])

/-- Modelled from the spec (§3): `b` is "past" `a` when `(b − a) mod 2³²` is
below `2³¹`; so `a` acknowledges end-sequence `e` when `(a − e) mod 2³²` is
below `2³¹` (for `a, e < 2³²` the subtraction is rendered as
`a + 2³² − e`). -/
def specModularGe (a e : Nat) : Bool :=
  (a + u32Mod - e) % u32Mod < 2147483648

/-! ## Concrete connections and segments used in the scenario theorems -/

/-- A connection in state `st` with send counter `seqN`, expected receive
sequence `ackN`, empty queues, the `DefaultWindowSize`-byte read buffer of
`NewConn`, and post-handshake channel bookkeeping (`connected` already
closed, `closeChan` not yet). -/
def mkConn (st : TCPState) (seqN ackN : Nat) : ConnState :=
  { sm := ⟨st, [], 100⟩,
    seqNum := seqN, ackNum := ackN, remoteWin := DefaultWindowSize,
    srtt := 0, rttvar := 0, rto := InitialRTO,
    sentTimes := [], sendQueue := [], receiveQueue := [],
    readBuffer := ⟨List.replicate DefaultWindowSize 0, DefaultWindowSize, 0, 0, 0⟩,
    closed := false, connectedClosed := true, closeChanClosed := false,
    panicked := false, rtoSamples := [] }

/-- Segment `{seq = 105, payload = "World"}` (§8 scenario 5). -/
def seg105 : PacketRec :=
  ⟨105, 0, false, false, false, false, 65535, [87, 111, 114, 108, 100]⟩

/-- Segment `{seq = 100, payload = "Hello"}` (§8 scenario 5). -/
def seg100 : PacketRec :=
  ⟨100, 0, false, false, false, false, 65535, [72, 101, 108, 108, 111]⟩

/-- An in-flight 5-byte data segment starting 10 below the `uint32` wrap:
`seq = 2³² − 10`, end-sequence `2³² − 5`. -/
def wrapPkt : PacketRec :=
  ⟨4294967286, 0, false, true, false, false, 65535, [97, 98, 99, 100, 101]⟩

/-- A connection that has emitted `wrapPkt` (queued unacknowledged, send
time 10) and whose send counter has wrapped past `2³²`. -/
def wrapConn : ConnState :=
  { mkConn ESTABLISHED 4294967291 500 with
    sendQueue := [(4294967286, wrapPkt)], sentTimes := [(4294967286, 10)] }

/-- The peer's acknowledgment of `wrapPkt` after the wrap: `ack = 3`, which
is at-or-past end-sequence `2³² − 5` in the modular order. -/
def wrapAckSeg : PacketRec := ⟨500, 3, false, true, false, false, 65535, []⟩

/-- A FIN (with ACK companion flag) from the peer. -/
def finSeg : PacketRec := ⟨300, 0, false, true, true, false, 65535, []⟩

/-- An in-flight 5-byte data segment at `seq = 1000` for the Karn scenario. -/
def karnPkt : PacketRec :=
  ⟨1000, 0, false, true, false, false, 65535, [1, 2, 3, 4, 5]⟩

/-- A connection that emitted `karnPkt` at instant 50 and still awaits its
acknowledgment. -/
def karnConn : ConnState :=
  { mkConn ESTABLISHED 1005 500 with
    sendQueue := [(1000, karnPkt)], sentTimes := [(1000, 50)] }

/-- The acknowledgment covering `karnPkt` (`ack = 1005`). -/
def karnAckSeg : PacketRec := ⟨500, 1005, false, true, false, false, 65535, []⟩

/-- A 1-byte data segment at `seq = 50`, an already-delivered duplicate for a
receiver whose `rcv_next` is 100. -/
def dupSeg : PacketRec := ⟨50, 0, false, false, false, false, 65535, [120]⟩

/-- A bare RST segment. -/
def rstSeg : PacketRec := ⟨0, 0, false, false, false, true, 0, []⟩

/-- A connection whose receive ring buffer has capacity 2 (for the
overflow scenario). -/
def tinyConn : ConnState :=
  { mkConn ESTABLISHED 1000 100 with readBuffer := ⟨[0, 0], 2, 0, 0, 0⟩ }

/-- A 3-byte in-order data segment for the 2-byte-free receiver. -/
def bigSeg : PacketRec := ⟨100, 0, false, false, false, false, 65535, [5, 6, 7]⟩

/-! ## Theorems -/

/-- C1: For every (state, event) pair, `ProcessEvent` conforms to the §4.2
transition table: where the table lists a successor state the machine moves
to exactly that state and succeeds; for every "—" cell it fails with
INVALID_TRANSITION and the machine (state and history alike) is exactly what
it was before the call. -/
theorem c1_processEvent_matches_spec_table (sm : SM) (event : TCPEvent) :
    match specTransitionTable sm.currentState event with
    | some s' =>
        (sm.processEvent event).2 = none ∧
        (sm.processEvent event).1.currentState = s'
    | none =>
        (sm.processEvent event).2 = some SMErr.invalidTransition ∧
        (sm.processEvent event).1 = sm := by
  obtain ⟨s, h, m⟩ := sm
  cases s <;> cases event <;>
    simp [SM.processEvent, transition, specTransitionTable, SM.addToHistory]

/-- Writing one byte at `head` and accounting for it in `size` appends that
byte to the logical contents, and preserves well-formedness. -/
theorem contents_writeByte (rb : RingBuffer) (b : Nat)
    (hwf : rb.wf) (hlt : rb.size < rb.capacity) :
    ({ rb.writeByte b with size := rb.size + 1 } : RingBuffer).contents
      = rb.contents ++ [b] ∧
    ({ rb.writeByte b with size := rb.size + 1 } : RingBuffer).wf := by
  obtain ⟨hlen, hcap, hsz, htl, hhd⟩ := hwf
  have hhead_lt : rb.head < rb.buffer.length := by
    rw [hlen, hhd]; exact Nat.mod_lt _ hcap
  constructor
  · simp only [RingBuffer.contents, RingBuffer.writeByte]
    rw [List.range_succ, List.map_append, List.map_singleton]
    congr 1
    · apply List.map_congr_left
      intro i hi
      rw [List.mem_range] at hi
      have hne : rb.head ≠ (rb.tail + i) % rb.capacity := by
        rw [hhd]
        intro hEq
        have h1 : rb.size % rb.capacity = i % rb.capacity :=
          Nat.ModEq.add_left_cancel' rb.tail hEq
        rw [Nat.mod_eq_of_lt hlt, Nat.mod_eq_of_lt (hi.trans hlt)] at h1
        omega
      simp [List.getD, List.getElem?_set_ne hne]
    · rw [← hhd]
      simp [List.getD, List.getElem?_set_self, hhead_lt]
  · refine ⟨by simp [RingBuffer.writeByte, hlen], hcap, hlt, htl, ?_⟩
    show (rb.head + 1) % rb.capacity = (rb.tail + (rb.size + 1)) % rb.capacity
    rw [hhd, Nat.mod_add_mod, Nat.add_assoc]

/-- The write loop preserves the capacity field. -/
theorem writeBytes_capacity (data : List Nat) (rb : RingBuffer) :
    (rb.writeBytes data).capacity = rb.capacity := by
  induction data generalizing rb with
  | nil => rfl
  | cons d ds ih => exact ih (rb.writeByte d)

/-- The write loop of `Write`/`WriteAll`, followed by the source's final
`size` bump, appends the written bytes to the logical contents whenever they
fit, and preserves well-formedness. -/
theorem contents_writeBytes (data : List Nat) (rb : RingBuffer) :
    rb.wf → rb.size + data.length ≤ rb.capacity →
    ({ rb.writeBytes data with size := rb.size + data.length } : RingBuffer).contents
      = rb.contents ++ data ∧
    ({ rb.writeBytes data with size := rb.size + data.length } : RingBuffer).wf := by
  induction data using List.reverseRecOn with
  | nil =>
      intro hwf _
      rw [List.append_nil]
      exact ⟨rfl, hwf⟩
  | append_singleton ds d ih =>
      intro hwf hle
      have hlen : (ds ++ [d]).length = ds.length + 1 := by simp
      obtain ⟨hc, hwf'⟩ := ih hwf (by rw [hlen] at hle; omega)
      have hlt' :
          ({ rb.writeBytes ds with size := rb.size + ds.length } : RingBuffer).size
            < ({ rb.writeBytes ds with size := rb.size + ds.length } : RingBuffer).capacity := by
        have hle' : rb.size + ds.length + 1 ≤ rb.capacity := by
          rw [hlen] at hle; omega
        show rb.size + ds.length < (rb.writeBytes ds).capacity
        rw [writeBytes_capacity]
        omega
      obtain ⟨hc2, hwf2⟩ :=
        contents_writeByte { rb.writeBytes ds with size := rb.size + ds.length } d hwf' hlt'
      have hfold : rb.writeBytes (ds ++ [d]) = (rb.writeBytes ds).writeByte d := by
        simp [RingBuffer.writeBytes, List.foldl_append]
      rw [hfold, hlen]
      constructor
      · calc ({ (rb.writeBytes ds).writeByte d with size := rb.size + (ds.length + 1) }
              : RingBuffer).contents
            = ({ rb.writeBytes ds with size := rb.size + ds.length }
                : RingBuffer).contents ++ [d] := hc2
          _ = (rb.contents ++ ds) ++ [d] := by rw [hc]
          _ = rb.contents ++ (ds ++ [d]) := by rw [List.append_assoc]
      · exact hwf2

/-- C8: `WriteAll` is atomic.  For every well-formed buffer and byte
sequence: when the bytes fit the free space, all of them are appended to the
logical contents and the call succeeds (well-formedness preserved); when they
exceed the free space, the call fails with BUFFER_FULL and the buffer record
(storage, size, head, tail) is exactly what it was before — no partial copy
is observable. -/
theorem c8_writeAll_atomic (rb : RingBuffer) (data : List Nat) (hwf : rb.wf) :
    (data.length ≤ rb.capacity - rb.size →
       (rb.writeAll data).2 = none ∧
       (rb.writeAll data).1.contents = rb.contents ++ data ∧
       (rb.writeAll data).1.wf) ∧
    (data.length > rb.capacity - rb.size →
       (rb.writeAll data).2 = some RBErr.bufferFull ∧
       (rb.writeAll data).1 = rb) := by
  constructor
  · intro hfit
    have hle : rb.size + data.length ≤ rb.capacity := by
      have := hwf.2.2.1; omega
    obtain ⟨hc, hwf'⟩ := contents_writeBytes data rb hwf hle
    by_cases h0 : data.length = 0
    · have hnil : data = [] := List.length_eq_zero.mp h0
      subst hnil
      refine ⟨by simp [RingBuffer.writeAll], by simp [RingBuffer.writeAll], ?_⟩
      simpa [RingBuffer.writeAll] using hwf
    · have hnot : ¬ data.length > rb.capacity - rb.size := by omega
      refine ⟨?_, ?_, ?_⟩ <;>
        simp only [RingBuffer.writeAll, if_neg h0, if_neg hnot] <;>
        first
          | rfl
          | exact hc
          | exact hwf'
  · intro hover
    have h0 : ¬ data.length = 0 := by omega
    refine ⟨?_, ?_⟩ <;>
      simp only [RingBuffer.writeAll, if_neg h0, if_pos hover]

/-- The atomicity theorem applied at a concrete buffer: a 4-byte empty
buffer accepts `[1, 2, 3]` whole, and refuses `[1, 2, 3]` from a buffer with
2 free bytes, unchanged. -/
theorem c8_writeAll_atomic_witness :
    ((⟨List.replicate 4 0, 4, 0, 0, 0⟩ : RingBuffer).writeAll [1, 2, 3]).2 = none ∧
    ((⟨List.replicate 4 0, 4, 0, 0, 0⟩ : RingBuffer).writeAll [1, 2, 3]).1.contents
      = (⟨List.replicate 4 0, 4, 0, 0, 0⟩ : RingBuffer).contents ++ [1, 2, 3] ∧
    ((⟨List.replicate 4 0, 4, 2, 2, 0⟩ : RingBuffer).writeAll [1, 2, 3]).2
      = some RBErr.bufferFull ∧
    ((⟨List.replicate 4 0, 4, 2, 2, 0⟩ : RingBuffer).writeAll [1, 2, 3]).1
      = ⟨List.replicate 4 0, 4, 2, 2, 0⟩ := by
  have h1 := c8_writeAll_atomic ⟨List.replicate 4 0, 4, 0, 0, 0⟩ [1, 2, 3]
    (by constructor <;> simp)
  have h2 := c8_writeAll_atomic ⟨List.replicate 4 0, 4, 2, 2, 0⟩ [1, 2, 3]
    (by constructor <;> simp)
  have ha := h1.1 (by simp)
  have hb := h2.2 (by simp)
  exact ⟨ha.1, ha.2.1, hb.1, hb.2⟩


/-- C7: RFC 6298 on the first sample.  For every first round-trip
measurement `R` (and any stale `rttvar`), `updateRTO` sets `srtt = R`,
`rttvar = R / 2` and `rto = srtt + 4·rttvar` clamped to
`[MinRTO, MaxRTO]`; in particular one sample of 100 ms yields
`srtt = 100 ms`, `rttvar = 50 ms`, `rto = 300 ms`. -/
theorem c7_updateRTO_first_sample :
    (∀ R v : Nat, updateRTO 0 v R
      = (R, R / 2, min MaxRTO (max MinRTO (R + 4 * (R / 2))))) ∧
    updateRTO 0 0 100000000 = (100000000, 50000000, 300000000) := by
  constructor
  · intro R v
    simp only [updateRTO, MinRTO, MaxRTO, if_pos rfl, Nat.min_def, Nat.max_def,
      Prod.mk.injEq, true_and, and_true]
    split_ifs <;> omega
  · decide

/-- C2 (divergence witness): the acknowledgment sweep compares `uint32`
values with the plain unsigned `>=`, not the modulo-2³² order the spec
mandates.  With an in-flight segment ending at `2³² − 5` and an incoming
acknowledgment `a = 3` (past the wrap), the modular order says the segment
is acknowledged (`specModularGe` holds), yet the sweep leaves the entry in
the unacknowledged queue and feeds no RTT sample. -/
theorem c2_ack_sweep_misses_wrapped_entry :
    specModularGe 3 (pktEnd 4294967286 wrapPkt) = true ∧
    (wrapConn.handlePacket wrapAckSeg 20).1.sendQueue
      = [(4294967286, wrapPkt)] ∧
    (wrapConn.handlePacket wrapAckSeg 20).1.sentTimes = [(4294967286, 10)] ∧
    (wrapConn.handlePacket wrapAckSeg 20).1.rtoSamples = [] := by
  decide

/-- C3 (divergence witness): after a passive FIN in ESTABLISHED the
connection sits in CLOSE_WAIT with `closed` still false and an empty
receive buffer, and `Read`'s wait-loop predicate (`c.closed ||
c.state.IsClosed()`) does not hold — the reader keeps blocking on the
condition variable instead of returning end-of-stream as the spec
requires. -/
theorem c3_read_blocks_after_fin_in_close_wait :
    (((mkConn ESTABLISHED 1000 300).handlePacket finSeg 0).1.sm.currentState
      = CLOSE_WAIT) ∧
    ((mkConn ESTABLISHED 1000 300).handlePacket finSeg 0).1.closed = false ∧
    ((mkConn ESTABLISHED 1000 300).handlePacket finSeg 0).1.readBuffer.isEmpty
      = true ∧
    ((mkConn ESTABLISHED 1000 300).handlePacket finSeg 0).1.readDecision
      = ReadOutcome.blocks := by
  decide

/-- C4: out-of-order reassembly.  From `rcv_next = 100`, delivering
`{seq = 105, payload = "World"}` and then `{seq = 100, payload = "Hello"}`
leaves `rcv_next = 110`, an empty reassembly table, and a receive buffer
whose read yields exactly the bytes of `"HelloWorld"`. -/
theorem c4_out_of_order_reassembly :
    (((mkConn ESTABLISHED 1000 100).handlePacket seg105 0).1.handlePacket
        seg100 0).1.ackNum = 110 ∧
    (((mkConn ESTABLISHED 1000 100).handlePacket seg105 0).1.handlePacket
        seg100 0).1.receiveQueue = [] ∧
    ((((mkConn ESTABLISHED 1000 100).handlePacket seg105 0).1.handlePacket
        seg100 0).1.readBuffer.read 100).2.1
      = [72, 101, 108, 108, 111, 87, 111, 114, 108, 100] := by
  decide

/-- C6 (divergence witness): Karn's algorithm is not implemented.  The
retransmission tick re-emits the queued segment and refreshes its send
time; the subsequent acknowledgment of that retransmitted segment still
feeds a round-trip sample to `updateRTO` (the sample list records seq 1000
and `srtt` becomes `now − retransmitTime = 20`). -/
theorem c6_rtt_sample_taken_for_retransmitted_segment :
    (karnConn.retransmitTick 70).2 = [karnPkt] ∧
    (karnConn.retransmitTick 70).1.sentTimes = [(1000, 70)] ∧
    ((karnConn.retransmitTick 70).1.handlePacket karnAckSeg 90).1.rtoSamples
      = [1000] ∧
    ((karnConn.retransmitTick 70).1.handlePacket karnAckSeg 90).1.srtt = 20 := by
  decide


/-- `ConnState.processEvent` only touches the state machine and the channel
bookkeeping: the receive-path fields are untouched. -/
theorem processEvent_fields (c : ConnState) (e : TCPEvent) :
    (c.processEvent e).readBuffer = c.readBuffer ∧
    (c.processEvent e).ackNum = c.ackNum ∧
    (c.processEvent e).receiveQueue = c.receiveQueue ∧
    (c.processEvent e).seqNum = c.seqNum := by
  cases h : c.sm.processEvent e with
  | mk sm' err =>
      cases err with
      | none =>
          simp only [ConnState.processEvent, h]
          split_ifs <;> refine ⟨?_, ?_, ?_, ?_⟩ <;> trivial
      | some e' =>
          simp only [ConnState.processEvent, h]
          refine ⟨?_, ?_, ?_, ?_⟩ <;> trivial

/-- The acknowledgment sweep only touches the send-side tables and the RTO
state: the receive-path fields are untouched. -/
theorem ackSweep_fields (a now : Nat) (l : List (Nat × PacketRec))
    (c : ConnState) :
    (ackSweep a now l c).readBuffer = c.readBuffer ∧
    (ackSweep a now l c).ackNum = c.ackNum ∧
    (ackSweep a now l c).receiveQueue = c.receiveQueue ∧
    (ackSweep a now l c).seqNum = c.seqNum := by
  induction l generalizing c with
  | nil => exact ⟨rfl, rfl, rfl, rfl⟩
  | cons hd tl ih =>
      obtain ⟨seq, pkt⟩ := hd
      simp only [ackSweep]
      split_ifs with hge
      · cases hl : alookup seq c.sentTimes with
        | none => simp only [hl]; exact ih _
        | some t => simp only [hl]; exact ih _
      · exact ih c

/-- The ACK clause of `HandlePacket` leaves the receive-path fields
untouched. -/
theorem ackBranch_fields (c : ConnState) (p : PacketRec) (now : Nat) :
    (ackBranch c p now).readBuffer = c.readBuffer ∧
    (ackBranch c p now).ackNum = c.ackNum ∧
    (ackBranch c p now).receiveQueue = c.receiveQueue ∧
    (ackBranch c p now).seqNum = c.seqNum := by
  unfold ackBranch
  split_ifs with h1 h2 h3 h4
  · obtain ⟨a1, a2, a3, a4⟩ := ackSweep_fields p.ack now
      (c.processEvent ACK).sendQueue (c.processEvent ACK)
    obtain ⟨b1, b2, b3, b4⟩ := processEvent_fields c ACK
    exact ⟨a1.trans b1, a2.trans b2, a3.trans b3, a4.trans b4⟩
  · obtain ⟨a1, a2, a3, a4⟩ := ackSweep_fields p.ack now
      (c.processEvent ACK).sendQueue (c.processEvent ACK)
    obtain ⟨b1, b2, b3, b4⟩ := processEvent_fields c ACK
    exact ⟨a1.trans b1, a2.trans b2, a3.trans b3, a4.trans b4⟩
  · obtain ⟨a1, a2, a3, a4⟩ := ackSweep_fields p.ack now
      ({ c.processEvent ACK with closed := true } : ConnState).sendQueue
      { c.processEvent ACK with closed := true }
    obtain ⟨b1, b2, b3, b4⟩ := processEvent_fields c ACK
    exact ⟨a1.trans b1, a2.trans b2, a3.trans b3, a4.trans b4⟩
  · exact ackSweep_fields p.ack now c.sendQueue c
  · exact ⟨rfl, rfl, rfl, rfl⟩

/-- C5 counterexample: at `rcv_next = 100`, an already-delivered duplicate
(`seq = 50`) is dropped with NO bare ACK: `HandlePacket` emits nothing
(refuting the claim's "emits a bare ACK to the peer"), while `rcv_next`
stays 100. -/
theorem c5_counterexample_no_ack_for_duplicate :
    ((mkConn ESTABLISHED 1000 100).handlePacket dupSeg 0).2 = [] ∧
    ((mkConn ESTABLISHED 1000 100).handlePacket dupSeg 0).1.ackNum = 100 := by
  decide

/-- C5 amended: for every incoming data segment (no RST/SYN/FIN) whose
sequence number is neither equal to nor above `rcv_next` in the source's
plain `uint32` order, the receive path discards the payload without
modifying the receive buffer, `rcv_next`, or the reassembly table — and
emits nothing (no bare ACK is sent). -/
theorem c5_amended_duplicate_discarded_silently
    (c : ConnState) (p : PacketRec) (now : Nat)
    (hrst : p.RST = false) (hsyn : p.SYN = false) (hfin : p.FIN = false)
    (hdata : p.payload.length > 0)
    (hne : ¬ p.seq = c.ackNum) (hnotgt : ¬ p.seq > c.ackNum) :
    (c.handlePacket p now).1.readBuffer = c.readBuffer ∧
    (c.handlePacket p now).1.ackNum = c.ackNum ∧
    (c.handlePacket p now).1.receiveQueue = c.receiveQueue ∧
    (c.handlePacket p now).2 = [] := by
  obtain ⟨a1, a2, a3, -⟩ := ackBranch_fields c p now
  simp only [ConnState.handlePacket, synBranch, finBranch, payloadBranch,
    hrst, hsyn, hfin, Bool.false_eq_true, if_false, a2, hdata, if_pos,
    if_neg hne, if_neg hnotgt]
  refine ⟨?_, ?_, ?_, ?_⟩ <;> first | exact a1 | exact a3 | trivial

/-- The C5 amended theorem applied at `rcv_next = 100`, duplicate
`seq = 50`: the hypotheses hold and the segment is dropped without any
emission. -/
theorem c5_amended_witness :
    dupSeg.RST = false ∧ dupSeg.SYN = false ∧ dupSeg.FIN = false ∧
    dupSeg.payload.length > 0 ∧
    ¬ dupSeg.seq = (mkConn ESTABLISHED 1000 100).ackNum ∧
    ¬ dupSeg.seq > (mkConn ESTABLISHED 1000 100).ackNum ∧
    ((mkConn ESTABLISHED 1000 100).handlePacket dupSeg 0).1.receiveQueue
      = (mkConn ESTABLISHED 1000 100).receiveQueue ∧
    ((mkConn ESTABLISHED 1000 100).handlePacket dupSeg 0).2 = [] := by
  have h := c5_amended_duplicate_discarded_silently
    (mkConn ESTABLISHED 1000 100) dupSeg 0 rfl rfl rfl
    (by decide) (by decide) (by decide)
  exact ⟨rfl, rfl, rfl, by decide, by decide, by decide, h.2.2.1, h.2.2.2⟩


/-- `Write` copies exactly `min(len(data), free)` bytes: the logical
contents gain that prefix of `data`; well-formedness is preserved. -/
theorem write_contents (rb : RingBuffer) (data : List Nat) (hwf : rb.wf) :
    (rb.write data).1.contents
      = rb.contents ++ data.take (min data.length (rb.capacity - rb.size)) ∧
    (rb.write data).1.wf := by
  by_cases h0 : data.length = 0
  · obtain rfl : data = [] := List.length_eq_zero.mp h0
    constructor
    · simp [RingBuffer.write]
    · simpa [RingBuffer.write] using hwf
  · have hne : ¬ data = [] := fun h => h0 (by simp [h])
    by_cases hfree : rb.capacity - rb.size = 0
    · constructor
      · simp [RingBuffer.write, hne, hfree]
      · simpa [RingBuffer.write, hne, hfree] using hwf
    · have htw_le : min data.length (rb.capacity - rb.size) ≤ data.length :=
        Nat.min_le_left _ _
      have hlen :
          (data.take (min data.length (rb.capacity - rb.size))).length
            = min data.length (rb.capacity - rb.size) := by
        rw [List.length_take]
        exact Nat.min_eq_left htw_le
      have hle : rb.size
            + (data.take (min data.length (rb.capacity - rb.size))).length
          ≤ rb.capacity := by
        rw [hlen]
        have := Nat.min_le_right data.length (rb.capacity - rb.size)
        omega
      obtain ⟨hc, hwf2⟩ := contents_writeBytes
        (data.take (min data.length (rb.capacity - rb.size))) rb hwf hle
      rw [hlen] at hc hwf2
      constructor
      · simp only [RingBuffer.write, if_neg h0, if_neg hfree]
        exact hc
      · simp only [RingBuffer.write, if_neg h0, if_neg hfree]
        exact hwf2

/-- C9: when an in-order data segment overflows the receive buffer,
`rcv_next` still advances by the full payload length and a lone bare ACK
carrying the advanced `rcv_next` is emitted, while the buffer gains only the
first free-space bytes of the payload — the rest is acknowledged yet
dropped. -/
theorem c9_overflow_payload_acknowledged_but_truncated
    (c : ConnState) (p : PacketRec) (now : Nat)
    (hwf : c.readBuffer.wf)
    (hrst : p.RST = false) (hsyn : p.SYN = false) (hfin : p.FIN = false)
    (hseq : p.seq = c.ackNum)
    (hover : p.payload.length > c.readBuffer.freeSpace)
    (hq : c.receiveQueue = []) :
    (c.handlePacket p now).1.ackNum
      = (c.ackNum + p.payload.length) % u32Mod ∧
    (c.handlePacket p now).1.readBuffer.contents
      = c.readBuffer.contents ++ p.payload.take c.readBuffer.freeSpace ∧
    ∃ w, (c.handlePacket p now).2
      = [⟨c.seqNum, (c.ackNum + p.payload.length) % u32Mod,
          false, true, false, false, w, []⟩] := by
  obtain ⟨a1, a2, a3, a4⟩ := ackBranch_fields c p now
  have hdata : 0 < p.payload.length := by
    have := Nat.zero_le c.readBuffer.freeSpace
    omega
  have hmin : min p.payload.length (c.readBuffer.capacity - c.readBuffer.size)
      = c.readBuffer.freeSpace := by
    exact Nat.min_eq_right (le_of_lt hover)
  obtain ⟨hwc, -⟩ := write_contents c.readBuffer p.payload hwf
  rw [hmin] at hwc
  simp only [ConnState.handlePacket, synBranch, finBranch, payloadBranch,
    ConnState.sendControlPacket, ConnState.sendPacketLocked,
    hrst, hsyn, hfin, Bool.false_eq_true, if_false,
    a1, a2, a3, a4, hq, hseq, hdata,
    List.length_nil, drainLoop, lt_self_iff_false,
    Bool.or_false, Bool.or_self, List.nil_append, if_true, if_pos]
  refine ⟨?_, ?_, ?_⟩
  · rfl
  · exact hwc
  · exact ⟨_, rfl⟩

/-- C10: the close-notification channel is closed twice.  (a) Handling a
first RST with `closeChan` still open closes it without panicking; (b)
handling any further RST — the machine re-enters CLOSED, since `transition`
maps RST to CLOSED from every state including CLOSED — makes the callback
close the already-closed channel: the program panics.  (c) `Close` invoked
in LISTEN transitions straight to CLOSED, so the callback closes the
channel and `Close`'s own `close(c.closeChan)` then panics. -/
theorem c10_double_close_of_closeChan_panics :
    (∀ (c : ConnState) (now : Nat), c.closeChanClosed = false →
       (c.handlePacket rstSeg now).1.closeChanClosed = true ∧
       (c.handlePacket rstSeg now).1.panicked = c.panicked) ∧
    (∀ (c : ConnState) (now : Nat), c.closeChanClosed = true →
       (c.handlePacket rstSeg now).1.panicked = true) ∧
    (∀ (c : ConnState) (now : Nat),
       c.sm.currentState = LISTEN → c.closed = false →
       c.closeChanClosed = false →
       (c.closeConn now).1.panicked = true) := by
  refine ⟨?_, ?_, ?_⟩
  · intro c now hcc
    simp [ConnState.handlePacket, ConnState.processEvent, SM.processEvent,
      transition, SM.addToHistory, rstSeg, hcc]
  · intro c now hcc
    simp [ConnState.handlePacket, ConnState.processEvent, SM.processEvent,
      transition, SM.addToHistory, rstSeg, hcc]
  · intro c now hst hclosed hcc
    simp [ConnState.closeConn, ConnState.processEvent, SM.processEvent,
      transition, SM.addToHistory, ConnState.sendControlPacket,
      ConnState.sendPacketLocked, hst, hclosed, hcc]


/-- The C9 theorem applied at a concrete connection: a 2-byte-free receiver
handed a 3-byte in-order segment advances `rcv_next` by 3, stores 2 bytes,
and emits one bare ACK. -/
theorem c9_overflow_witness :
    tinyConn.readBuffer.wf ∧
    bigSeg.payload.length > tinyConn.readBuffer.freeSpace ∧
    ((tinyConn.handlePacket bigSeg 0).1.ackNum
        = (tinyConn.ackNum + bigSeg.payload.length) % u32Mod ∧
      (tinyConn.handlePacket bigSeg 0).1.readBuffer.contents
        = tinyConn.readBuffer.contents
          ++ bigSeg.payload.take tinyConn.readBuffer.freeSpace ∧
      ∃ w, (tinyConn.handlePacket bigSeg 0).2
        = [⟨tinyConn.seqNum, (tinyConn.ackNum + bigSeg.payload.length) % u32Mod,
            false, true, false, false, w, []⟩]) := by
  refine ⟨by unfold RingBuffer.wf; decide, by decide, ?_⟩
  exact c9_overflow_payload_acknowledged_but_truncated tinyConn bigSeg 0
    (by unfold RingBuffer.wf; decide) rfl rfl rfl rfl (by decide) rfl

/-- The C10 theorem applied concretely: a first RST closes `closeChan`; a
second RST panics; and `Close` from LISTEN panics at once. -/
theorem c10_double_close_witness :
    (mkConn ESTABLISHED 1000 100).closeChanClosed = false ∧
    ((mkConn ESTABLISHED 1000 100).handlePacket rstSeg 0).1.closeChanClosed
      = true ∧
    (((mkConn ESTABLISHED 1000 100).handlePacket rstSeg 0).1.handlePacket
        rstSeg 0).1.panicked = true ∧
    (mkConn LISTEN 1000 100).sm.currentState = LISTEN ∧
    ((mkConn LISTEN 1000 100).closeConn 0).1.panicked = true := by
  obtain ⟨h1, h2, h3⟩ := c10_double_close_of_closeChan_panics
  exact ⟨rfl, (h1 _ 0 rfl).1, h2 _ 0 (h1 _ 0 rfl).1, rfl, h3 _ 0 rfl rfl rfl⟩

end Tcpconn
